import Mathlib

/-!
# Verification of the light-mcp-agents core

A shallow embedding of the connection-lifecycle manager, tool registry and
orchestration loop of the repository, together with theorems settling the
frozen claims about them.

Source files embedded:
* `src/agent/agent.py` — `Agent.process_llm_response`, `Agent.execute_tool_call`,
  `Agent.start_conversation` (chain-of-thought loop).
* `src/tools/tool.py` — `Tool.execute`, `ToolRegistry.discover_tools`,
  `ToolRegistry.load_from_config`.
* `src/mcp/mcp_connection_manager.py` — `ServerConnection._initialize_impl`,
  `ServerConnection.cleanup`, `MCPConnectionManager.connect_server`,
  `MCPConnectionManager.get_session`.

External collaborators (the Python `json` and `re` standard-library routines,
the remote MCP session, the LLM client) are modelled as executable Lean
functions, faithful to their documented behaviour on the fragment the source
exercises; remote effects are supplied as explicit oracles.
-/

namespace LightMCP

/-! ## A model of decoded JSON values (the result of Python `json.loads`).

Numbers are modelled as integers (the source's inputs only ever carry integer
literals); object fields keep their textual order, with later duplicates
shadowing earlier ones on lookup, as in a Python dict built by `json.loads`. -/

inductive Json where
  | null : Json
  | bool : Bool → Json
  | num : Int → Json
  | str : String → Json
  | arr : List Json → Json
  | obj : List (String × Json) → Json

instance : Inhabited Json := ⟨Json.null⟩

/-- Python `"key" in decoded` membership test: true only for objects holding
the key. -/
def Json.hasKey : Json → String → Bool
  | .obj fields, k => fields.any (fun p => p.1 = k)
  | _, _ => false

/-- Python `decoded["key"]` lookup (last duplicate wins, as in a dict built
by repeated insertion); `null` when absent — callers in the source only use
it after a `hasKey` guard. -/
def Json.getD : Json → String → Json
  | .obj fields, k =>
      (fields.filterMap (fun p => if p.1 = k then some p.2 else none)).getLastD Json.null
  | _, _ => Json.null

/-- Python `str(...)` rendering of a decoded JSON value, as interpolated into
the agent's "No tool found with name: ..." message.  Only scalar values can
reach this rendering: for dict- and list-valued `tool` fields the preceding
`tools.get(...)` raises `TypeError` (see `registryGet`), so the program never
formats the message for a container and the filler branches below are dead
code of the model. -/
def pyStr : Json → String
  | .null => "None"
  | .bool true => "True"
  | .bool false => "False"
  | .num n => toString n
  | .str s => s
  | .arr _ => ""
  | .obj _ => ""

/-! ## Python string helpers used by the source -/

/-- Python whitespace for `str.strip()`. -/
def pySpace (c : Char) : Bool :=
  c == ' ' || c == '\t' || c == '\n' || c == '\r' || c == '\x0b' || c == '\x0c'

/-- Python `str.strip()`. -/
def pyStrip (s : List Char) : List Char :=
  ((s.dropWhile pySpace).reverse.dropWhile pySpace).reverse

/-- The scan of Python `s.replace(m, "")`.  Fuelled (each step consumes at
least one character, so fuel `s.length` always completes the scan). -/
def replaceAllGo (m : List Char) : Nat → List Char → List Char
  | 0, s => s
  | _ + 1, [] => []
  | fuel + 1, c :: cs =>
      if m ≠ [] ∧ m.isPrefixOf (c :: cs) then replaceAllGo m fuel (cs.drop (m.length - 1))
      else c :: replaceAllGo m fuel cs

/-- Python `s.replace(m, "")`: every non-overlapping occurrence of `m`,
scanning left to right, is deleted.  (For the empty pattern Python would
interleave; the source only ever passes regex matches, which have at least
two characters.) -/
def replaceAll (m s : List Char) : List Char := replaceAllGo m s.length s

/-- Whether `m` occurs as a contiguous substring of the second list. -/
def listContains (m : List Char) : List Char → Bool
  | [] => m.isEmpty
  | c :: cs => m.isPrefixOf (c :: cs) || listContains m cs

/-! ## The JSON decoder (model of Python `json.loads`)

A recursive-descent decoder over the fragment of JSON the source's inputs
use: objects, arrays, double-quoted strings with backslash escapes for the
quote and the backslash, integer numbers, `true`/`false`/`null`.  Decoding
fails on trailing content, exactly as `json.loads` raises there.  Recursion
is fuelled; the fuel supplied by `loads` strictly dominates the nesting depth
of any input. -/

/-- JSON insignificant whitespace. -/
def jsonWs (c : Char) : Bool := c == ' ' || c == '\t' || c == '\n' || c == '\r'

def skipWs : List Char → List Char
  | [] => []
  | c :: cs => if jsonWs c then skipWs cs else c :: cs

/-- Body of a string literal, after the opening quote: returns the decoded
characters and the rest after the closing quote. -/
def strLitBody : List Char → Option (List Char × List Char)
  | [] => none
  | '"' :: cs => some ([], cs)
  | '\\' :: '"' :: cs => (strLitBody cs).map (fun p => ('"' :: p.1, p.2))
  | '\\' :: '\\' :: cs => (strLitBody cs).map (fun p => ('\\' :: p.1, p.2))
  | '\\' :: _ => none
  | c :: cs => (strLitBody cs).map (fun p => (c :: p.1, p.2))

def natOfDigits (ds : List Char) : Nat :=
  ds.foldl (fun n c => 10 * n + (c.toNat - 48)) 0

mutual

def parseValue : Nat → List Char → Option (Json × List Char)
  | 0, _ => none
  | fuel + 1, cs0 =>
    match skipWs cs0 with
    | [] => none
    | '"' :: rest => (strLitBody rest).map (fun p => (Json.str (String.mk p.1), p.2))
    | '{' :: rest => (objBody fuel true rest).map (fun p => (Json.obj p.1, p.2))
    | '[' :: rest => (arrBody fuel true rest).map (fun p => (Json.arr p.1, p.2))
    | '-' :: rest =>
      match rest.takeWhile Char.isDigit with
      | [] => none
      | ds => some (Json.num (-(natOfDigits ds : Int)), rest.dropWhile Char.isDigit)
    | c :: rest =>
      if c.isDigit then
        some (Json.num (natOfDigits ((c :: rest).takeWhile Char.isDigit)),
              (c :: rest).dropWhile Char.isDigit)
      else if c = 't' ∧ rest.take 3 = ['r', 'u', 'e'] then
        some (Json.bool true, rest.drop 3)
      else if c = 'f' ∧ rest.take 4 = ['a', 'l', 's', 'e'] then
        some (Json.bool false, rest.drop 4)
      else if c = 'n' ∧ rest.take 3 = ['u', 'l', 'l'] then
        some (Json.null, rest.drop 3)
      else none

/-- Members of an object, after the opening brace (or after a comma, in which
case `allowEnd` is false and an immediate closing brace is rejected, as in
JSON). -/
def objBody : Nat → Bool → List Char → Option (List (String × Json) × List Char)
  | 0, _, _ => none
  | fuel + 1, allowEnd, cs0 =>
    match skipWs cs0 with
    | '}' :: rest => if allowEnd then some ([], rest) else none
    | '"' :: rest =>
      match strLitBody rest with
      | none => none
      | some (key, r1) =>
        match skipWs r1 with
        | ':' :: r2 =>
          match parseValue fuel r2 with
          | none => none
          | some (v, r3) =>
            match skipWs r3 with
            | ',' :: r4 => (objBody fuel false r4).map
                (fun p => ((String.mk key, v) :: p.1, p.2))
            | '}' :: r4 => some ([(String.mk key, v)], r4)
            | _ => none
        | _ => none
    | _ => none

/-- Items of an array, after the opening bracket (or after a comma, with
`allowEnd` false). -/
def arrBody : Nat → Bool → List Char → Option (List Json × List Char)
  | 0, _, _ => none
  | fuel + 1, allowEnd, cs0 =>
    match skipWs cs0 with
    | ']' :: rest => if allowEnd then some ([], rest) else none
    | cs =>
      if (¬ allowEnd) ∨ cs ≠ [] then
        match parseValue fuel cs with
        | none => none
        | some (v, r1) =>
          match skipWs r1 with
          | ',' :: r2 => (arrBody fuel false r2).map (fun p => (v :: p.1, p.2))
          | ']' :: r2 => some ([v], r2)
          | _ => none
      else none

end

/-- Model of Python `json.loads`: decode one value and require only
whitespace after it. -/
def loads (s : List Char) : Option Json :=
  match parseValue (2 * s.length + 8) s with
  | some (v, rest) => if skipWs rest = [] then some v else none
  | none => none

/-! ## The tool-call regex (model of `re.findall` with the source's pattern)

The source scans the reply with the pattern
`\x7b(?:[^\x7b\x7d]|(?:\x7b[^\x7b\x7d]*\x7d))*\x7d`
(an opening brace, then a greedy run of non-brace characters or complete
brace groups with no braces inside — one level of nesting — then a closing
brace).  `re.findall` collects the non-overlapping matches left to right,
advancing one character past a position where no match starts.  Because the
inner alternative never consumes a lone brace, a match attempt proceeds
deterministically: it closes at the first top-level closing brace and fails
if it meets a nested opening brace whose group is not brace-free. -/

/-- The inner alternative: a brace-free run followed by a closing brace.
Returns the consumed characters (closing brace included) and the rest. -/
def innerGroup (cs : List Char) : Option (List Char × List Char) :=
  let body := cs.takeWhile (fun c => c ≠ '{' ∧ c ≠ '}')
  match cs.dropWhile (fun c => c ≠ '{' ∧ c ≠ '}') with
  | '}' :: rest => some (body ++ ['}'], rest)
  | _ => none

/-- A match attempt's body, after the opening brace: the consumed characters
(top-level closing brace included) and the rest.  Fuelled; each step consumes
at least one character, so fuel `length + 1` is always enough. -/
def braceBody : Nat → List Char → Option (List Char × List Char)
  | 0, _ => none
  | _ + 1, [] => none
  | fuel + 1, c :: cs =>
    if c = '}' then some (['}'], cs)
    else if c = '{' then
      match innerGroup cs with
      | none => none
      | some (grp, rest) => (braceBody fuel rest).map (fun p => ('{' :: grp ++ p.1, p.2))
    else (braceBody fuel cs).map (fun p => (c :: p.1, p.2))

/-- Model of `re.findall` with the source's pattern: all non-overlapping matches, left
to right. -/
def findallAux : Nat → List Char → List (List Char)
  | 0, _ => []
  | _ + 1, [] => []
  | fuel + 1, c :: cs =>
    if c = '{' then
      match braceBody (cs.length + 1) cs with
      | some (body, rest) => ('{' :: body) :: findallAux fuel rest
      | none => findallAux fuel cs
    else findallAux fuel cs

def findallJson (s : List Char) : List (List Char) := findallAux s.length s

/-! ## Tools and the tool registry (`src/tools/tool.py`) -/

/-- Metadata of one discovered remote operation (the `Tool` class). -/
structure Tool where
  name : String
  description : String
  input_schema : Json
  server_name : String

/-- The registry's `tools` dict: a name-keyed mapping built by repeated insertion;
modelled as the insertion sequence, with lookups taking the latest binding
(Python dict assignment overwrites). -/
abbrev Registry := List (String × Tool)

/-- Model of `ToolRegistry.register_tool`. -/
def register_tool (reg : Registry) (t : Tool) : Registry := reg ++ [(t.name, t)]

/-- Model of `ToolRegistry.get_tool` applied to the decoded `tool` field, as
the agent does (`self.tools.get(tool_call["tool"])`): a string key is looked
up in the dict (latest binding wins); other hashable scalars (numbers,
booleans, `None`) miss a dict whose keys are all strings; the unhashable
container values (a decoded dict or list) make `dict.get` raise `TypeError`,
which no handler on the path catches. -/
def registryGet (reg : Registry) : Json → Except String (Option Tool)
  | .str s => .ok ((reg.filterMap (fun p => if p.1 = s then some p.2 else none)).getLast?)
  | .obj _ => .error "TypeError: unhashable type: dict"
  | .arr _ => .error "TypeError: unhashable type: list"
  | _ => .ok none

/-! ### `Tool.execute` (retry loop)

The remote session and its `call_tool` are external; they enter the model as
oracles indexed by the attempt number: `sess i` is what
`connection_manager.get_session(self.server_name)` yields on attempt `i`
(`none` when no session is available), and `call i` is the outcome of
`session.call_tool(...)` there (`Except.error` models a raised exception,
`Except.ok` carries the rendering of the result).  The trace records how many
attempts ran, how many inter-attempt delays (`asyncio.sleep(delay)`) were
taken, and the outcome; `outcome = none` models the Python function falling
off the end of its loop (which returns `None`), possible only when
`retries = 0`. -/

deriving instance DecidableEq for Except

structure ToolExecTrace where
  attempts : Nat
  sleeps : Nat
  outcome : Option (Except String String)
  deriving Repr, DecidableEq

/-- The body of `Tool.execute`'s `while attempt < retries` loop.
`remaining = retries - attempt` counts the attempts still allowed. -/
def toolExecuteGo (server : String) (sess : Nat → Option Unit)
    (call : Nat → Except String String) :
    Nat → Nat → Nat → ToolExecTrace
  | 0, attempt, sleeps => { attempts := attempt, sleeps := sleeps, outcome := none }
  | remaining + 1, attempt, sleeps =>
    let res : Except String String :=
      match sess attempt with
      | none => .error ("Server " ++ server ++ " not initialized")
      | some _ => call attempt
    match res with
    | .ok r => { attempts := attempt + 1, sleeps := sleeps, outcome := some (.ok r) }
    | .error e =>
      if remaining = 0 then
        { attempts := attempt + 1, sleeps := sleeps, outcome := some (.error e) }
      else
        toolExecuteGo server sess call remaining (attempt + 1) (sleeps + 1)

/-- Model of `Tool.execute(arguments, connection_manager, retries, delay)`: the missing
session case raises `RuntimeError(f"Server ... not initialized")` inside the
`try`, so it flows into the same retry handling as a failing remote call. -/
def toolExecute (server : String) (sess : Nat → Option Unit)
    (call : Nat → Except String String) (retries : Nat) : ToolExecTrace :=
  toolExecuteGo server sess call retries 0 0

/-! ### `ToolRegistry.discover_tools` and `load_from_config` -/

/-- One item of a `session.list_tools()` response tuple. -/
structure ToolInfo where
  name : String
  description : String
  inputSchema : Json

/-- The per-server discovery environment: the session the Connection Manager
yields for the server, and the outcome of `session.list_tools()` (an
`Except.error` models any exception raised while listing or while iterating
the response). -/
structure DiscoverEnv where
  session : Option Unit
  listResult : Except String (List (String × List ToolInfo))

/-- Model of `ToolRegistry.discover_tools(connection_manager, server_name)`: returns
the updated registry and the list of newly discovered tools.  The source's
`try`/`except` means every failure path returns normally with `[]`. -/
def discover_tools (env : DiscoverEnv) (reg : Registry) (server_name : String) :
    Registry × List Tool :=
  match env.session with
  | none => (reg, [])
  | some _ =>
    match env.listResult with
    | .error _ => (reg, [])
    | .ok items =>
      let tools := (items.filter (fun p => p.1 = "tools")).flatMap
        (fun p => p.2.map (fun ti =>
          ({ name := ti.name, description := ti.description,
             input_schema := ti.inputSchema, server_name := server_name } : Tool)))
      (tools.foldl register_tool reg, tools)

/-- Model of `ToolRegistry.load_from_config(config, connection_manager)`: discover for
every server named in the configuration, in order, accumulating into one
registry. -/
def load_from_config (envs : String → DiscoverEnv) (servers : List String)
    (reg : Registry) : Registry :=
  servers.foldl (fun r name => (discover_tools (envs name) r name).1) reg

/-! ## The orchestration loop (`src/agent/agent.py`)

`tool.execute(...)`'s outcome inside `Agent.execute_tool_call` is supplied by
an oracle `runTool : String → Json → Except String String` keyed by the
resolved tool's name: an `Except.error` models a raised exception (its
`str(e)` rendering), an `Except.ok` the `str(result)` rendering. -/

/-- Model of `Agent.execute_tool_call(tool_call)`: returns
`(tool_result, is_tool_call)`.  The registry lookup sits *outside* the
`try`/`except` (which wraps only `tool.execute`), so a `TypeError` raised by
`tools.get` on an unhashable decoded `tool` value propagates to the caller
uncaught — modelled as the `Except.error` outcome. -/
def execute_tool_call (reg : Registry) (runTool : String → Json → Except String String)
    (tc : Json) : Except String (String × Bool) :=
  match registryGet reg (tc.getD "tool") with
  | .error e => .error e
  | .ok (some tool) =>
    match runTool tool.name (tc.getD "arguments") with
    | .ok r => .ok ("Tool execution result: " ++ r, true)
    | .error e => .ok ("Error executing tool: " ++ e, false)
  | .ok none => .ok ("No tool found with name: " ++ pyStr (tc.getD "tool"), false)

/-- The `for match in matches` loop of `Agent.process_llm_response`: the first
regex match that `json.loads` decodes to an object holding both a `tool` and
an `arguments` field, paired with its decoding. -/
def firstToolCallMatch : List (List Char) → Option (List Char × Json)
  | [] => none
  | m :: ms =>
    match loads m with
    | some j =>
      if j.hasKey "tool" ∧ j.hasKey "arguments" then some (m, j)
      else firstToolCallMatch ms
    | none => firstToolCallMatch ms

/-- Model of `Agent.process_llm_response(llm_response)`: returns
`(processed_result, is_tool_call, human_readable_text)`, or propagates the
uncaught exception of `execute_tool_call` (the remainder computed just before
it is then discarded, as the Python local is). -/
def process_llm_response (reg : Registry)
    (runTool : String → Json → Except String String) (resp : String) :
    Except String (String × Bool × String) :=
  match firstToolCallMatch (findallJson resp.toList) with
  | some (m, tc) =>
    let human := String.mk (pyStrip (replaceAll m resp.toList))
    match execute_tool_call reg runTool tc with
    | .error e => .error e
    | .ok r => .ok (r.1, r.2, human)
  | none => .ok (resp, false, resp)

/-- One conversation message: role (`"system"` / `"user"` / `"assistant"`)
and content. -/
structure Message where
  role : String
  content : String
  deriving Repr, DecidableEq

/-- The state carried across iterations of `Agent.start_conversation`'s
chain-of-thought loop.  `outputs` records the `print(f"Assistant: ...")`
lines in order; `execs` instruments the number of `tool.execute` invocations
(one per iteration whose parsed call resolves to a registered tool). -/
structure ChainState where
  messages : List Message
  chain_length : Nat
  is_tool_call : Bool
  final_response_shown : Bool
  execs : Nat
  outputs : List String
  deriving Repr, DecidableEq

/-- One iteration of the `while is_tool_call and chain_length < max` loop of
`Agent.start_conversation`.  `llm` models `self.llm_client.get_response`.
An exception out of `process_llm_response` happens before the assistant
message is appended (line 229 follows line 221), so the iteration then adds
nothing and the exception propagates: the surrounding handlers catch only
`KeyboardInterrupt`, so the conversation crashes. -/
def chainStep (reg : Registry) (runTool : String → Json → Except String String)
    (llm : List Message → String) (st : ChainState) : Except String ChainState :=
  let resp := llm st.messages
  match process_llm_response reg runTool resp with
  | .error e => .error e
  | .ok p =>
    let printedHuman := pyStrip p.2.2.toList ≠ []
    let outs1 := if printedHuman then st.outputs ++ ["Assistant: " ++ p.2.2] else st.outputs
    let shown1 := if printedHuman then true else st.final_response_shown
    let msgs1 := st.messages ++ [⟨"assistant", resp⟩]
    let invoked : Nat :=
      match firstToolCallMatch (findallJson resp.toList) with
      | some q =>
        match registryGet reg (q.2.getD "tool") with
        | .ok (some _) => 1
        | _ => 0
      | none => 0
    if p.2.1 then
      .ok { messages := msgs1 ++ [⟨"system", p.1⟩],
            chain_length := st.chain_length + 1,
            is_tool_call := true,
            final_response_shown := shown1,
            execs := st.execs + invoked,
            outputs := outs1 }
    else
      .ok { messages := msgs1,
            chain_length := st.chain_length,
            is_tool_call := false,
            final_response_shown := true,
            execs := st.execs + invoked,
            outputs := if shown1 then outs1 else outs1 ++ ["Assistant: " ++ resp] }

/-- The chain-of-thought loop.  Each continuing iteration either increments
`chain_length`, clears `is_tool_call`, or raises; fuel `maxLen + 1` always
reaches the loop's exit condition or the exception. -/
def runChain (reg : Registry) (runTool : String → Json → Except String String)
    (llm : List Message → String) (maxLen : Nat) :
    Nat → ChainState → Except String ChainState
  | 0, st => .ok st
  | fuel + 1, st =>
    if st.is_tool_call ∧ st.chain_length < maxLen then
      match chainStep reg runTool llm st with
      | .error e => .error e
      | .ok st' => runChain reg runTool llm maxLen fuel st'
    else .ok st

/-- The bounded-chain warning appended when the safety limit is hit. -/
def warningMsg : String :=
  "Maximum chain of thought length reached. Providing final response."

/-- One user turn of `Agent.start_conversation`: append the user message, run
the chain-of-thought loop from a fresh per-turn state, and on hitting the
chain-length bound append the warning as a `system` message, request one
final reply (no tool-call parsing) and surface it.  An exception raised
inside the loop propagates (only `KeyboardInterrupt` is caught around the
turn), ending the conversation. -/
def runTurn (reg : Registry) (runTool : String → Json → Except String String)
    (llm : List Message → String) (maxLen : Nat) (msgs : List Message)
    (user : String) : Except String ChainState :=
  let st0 : ChainState :=
    { messages := msgs ++ [⟨"user", user⟩], chain_length := 0, is_tool_call := true,
      final_response_shown := false, execs := 0, outputs := [] }
  match runChain reg runTool llm maxLen (maxLen + 1) st0 with
  | .error e => .error e
  | .ok st1 =>
    if st1.chain_length ≥ maxLen then
      let msgs2 := st1.messages ++ [⟨"system", warningMsg⟩]
      let final := llm msgs2
      .ok { st1 with
            messages := msgs2 ++ [⟨"assistant", final⟩],
            outputs := st1.outputs ++ ["Assistant: " ++ final] }
    else .ok st1

/-! ## The connection manager (`src/mcp/mcp_connection_manager.py`) -/

/-- One server's launch configuration. -/
structure ServerConfig where
  command : String
  args : List String
  env : List (String × String)
  deriving Repr, DecidableEq

/-- The observable state of one `ServerConnection`.  `initComplete` is the
`_init_complete` event (`true` once `set()` has fired, releasing every waiter
of `wait_until_initialized`); `registered` is membership in the shared
context's session directory; `resourcesReleased` records that the
`AsyncExitStack` holding the subprocess transport and handshake state has
been closed. -/
structure ConnState where
  name : String
  config : ServerConfig
  session : Option Unit
  initComplete : Bool
  registered : Bool
  resourcesReleased : Bool
  deriving Repr, DecidableEq

/-- The environment `_initialize_impl` runs against: what `shutil.which("npx")`
resolves to, and the outcomes of entering the stdio transport and of the
session handshake (`Except.error` models a raised exception). -/
structure InitEnv where
  whichNpx : Option String
  transport : Except String Unit
  handshake : Except String Unit

/-- Model of `ServerConnection._initialize_impl`, up to the point where the task either
raises or parks on its keep-alive future: command resolution, transport
start, handshake, session store, directory registration, readiness signal.
On every failure the `except` branch fires the readiness signal before
re-raising and the `finally` closes the exit stack; on success the task holds
its resources and keeps running. -/
def initImpl (env : InitEnv) (st : ConnState) : ConnState × Except String Unit :=
  match (if st.config.command = "npx" then env.whichNpx else some st.config.command) with
  | none =>
    ({ st with initComplete := true, resourcesReleased := true },
     .error ("Invalid command for server " ++ st.name))
  | some _ =>
    match env.transport with
    | .error e => ({ st with initComplete := true, resourcesReleased := true }, .error e)
    | .ok _ =>
      match env.handshake with
      | .error e => ({ st with initComplete := true, resourcesReleased := true }, .error e)
      | .ok _ =>
        ({ st with session := some (), registered := true, initComplete := true,
                   resourcesReleased := false }, .ok ())

/-- The manager's `connections` dict, modelled as the
insertion sequence with latest-binding lookup. -/
structure ManagerState where
  connections : List (String × ConnState)

/-- Dict lookup in the manager's mapping. -/
def lookupConn (m : ManagerState) (name : String) : Option ConnState :=
  (m.connections.filterMap (fun p => if p.1 = name then some p.2 else none)).getLast?

/-- Model of `MCPConnectionManager.get_session(name)`: `none` when the name is not
registered; otherwise the connection's session handle once its readiness
signal has fired (in this sequential model the stored state is the
post-readiness one, so the wait is immediate). -/
def get_session (m : ManagerState) (name : String) : Option Unit :=
  match lookupConn m name with
  | none => none
  | some c => c.session

/-- Model of `MCPConnectionManager.connect_server(name, config)`: an existing entry is
returned as-is after waiting for its readiness — the `config` argument is not
consulted on that path; otherwise a fresh connection is created with the
given config, stored, and initialized. -/
def connect_server (env : InitEnv) (m : ManagerState) (name : String)
    (config : ServerConfig) : ManagerState × ConnState :=
  match lookupConn m name with
  | some c => (m, c)
  | none =>
    let fresh : ConnState :=
      { name := name, config := config, session := none, initComplete := false,
        registered := false, resourcesReleased := false }
    let c' := (initImpl env fresh).1
    ({ connections := m.connections ++ [(name, c')] }, c')

/-! ### `ServerConnection.cleanup` -/

/-- The state `cleanup` acts on: the session handle, whether an
initialization task exists and whether it has finished, membership in the
shared session directory, and the `_is_cleaning_up` guard flag.  The
`_cleanup_lock` serializes concurrent callers, so concurrent invocation is
modelled as sequential composition. -/
structure CleanConn where
  session : Option Unit
  taskExists : Bool
  taskDone : Bool
  registered : Bool
  isCleaningUp : Bool
  deriving Repr, DecidableEq

/-- What one `cleanup()` call does and observes: the state it leaves, how many
`task.cancel()` requests it issued (the only teardown of the underlying task
and its resources), and whether it raised to its caller (the body's
`try`/`except Exception` means it never does). -/
structure CleanupResult where
  state : CleanConn
  cancels : Nat
  raised : Bool
  deriving Repr, DecidableEq

/-- Model of `ServerConnection.cleanup()`: under the lock, an early return if the guard
flag is set; otherwise cancel the task if it is still running and await it
(cancellation is an expected outcome), remove the directory entry (a no-op
when absent), clear the session handle, and reset the guard flag in the
`finally`. -/
def cleanup (c : CleanConn) : CleanupResult :=
  if c.isCleaningUp then { state := c, cancels := 0, raised := false }
  else
    let c' : CleanConn :=
      { c with taskDone := c.taskDone || c.taskExists, registered := false,
               session := none, isCleaningUp := false }
    { state := c',
      cancels := if c.taskExists ∧ ¬ c.taskDone then 1 else 0,
      raised := false }

/-! ## Concrete instances used by witnesses and counterexamples -/

/-- The spec's example tool call (JSON braces written with escapes). -/
def jLookup : String := "\x7b\"tool\": \"lookup\", \"arguments\": \x7b\"id\": 1\x7d\x7d"

/-- The spec's example model reply. -/
def exReply : String := "Let me check. " ++ jLookup ++ " Done."

/-- The decoding of `jLookup`. -/
def tcLookup : Json :=
  Json.obj [("tool", Json.str "lookup"), ("arguments", Json.obj [("id", Json.num 1)])]

/-- The registered tool the example reply names. -/
def toolLookup : Tool :=
  { name := "lookup", description := "a lookup", input_schema := Json.null,
    server_name := "srv" }

/-- A registry holding the one tool the example reply names. -/
def regLookup : Registry := [("lookup", toolLookup)]

/-- A remote invocation that always succeeds. -/
def runOk : String → Json → Except String String := fun _ _ => .ok "42"

/-- A remote invocation that always raises. -/
def runBoom : String → Json → Except String String := fun _ _ => .error "boom"

/-- A model that always answers with the example reply. -/
def llmLookup : List Message → String := fun _ => exReply

/-- A fresh per-turn loop state after one user message. -/
def stUser : ChainState :=
  { messages := [⟨"user", "hi"⟩], chain_length := 0, is_tool_call := true,
    final_response_shown := false, execs := 0, outputs := [] }

/-- A tool-call literal that occurs twice in the reply `r3`. -/
def j3 : String := "\x7b\"tool\": \"a\", \"arguments\": 1\x7d"

/-- A reply holding the same tool-call literal twice. -/
def r3 : String := "x " ++ j3 ++ " y " ++ j3 ++ " z"

/-- The decoding of `j3`. -/
def tc3 : Json := Json.obj [("tool", Json.str "a"), ("arguments", Json.num 1)]

/-- A matched tool-call text whose deletion from `s9` rejoins the surrounding
fragments into the very same text. -/
def m9 : String := "\x7b\"q\":\x7b\x7d,\"tool\":\"x\",\"arguments\":1\x7d"

/-- A reply built as `prefix-of-m9 ++ m9 ++ suffix-of-m9`: the regex scan
matches exactly the middle `m9`, and removing every occurrence of `m9`
concatenates the outer fragments back into `m9`. -/
def s9 : String := "\x7b\"q\":\x7b" ++ m9 ++ "\x7d,\"tool\":\"x\",\"arguments\":1\x7d"

/-- The decoding of `m9`. -/
def tc9 : Json :=
  Json.obj [("q", Json.obj []), ("tool", Json.str "x"), ("arguments", Json.num 1)]

/-- A reply whose decoded `tool` field is a dict — an unhashable value on
which the program's `tools.get` raises an uncaught `TypeError`. -/
def crashReply : String := "\x7b\"tool\": \x7b\x7d, \"arguments\": 1\x7d"

/-- The decoding of `crashReply`. -/
def tcCrash : Json := Json.obj [("tool", Json.obj []), ("arguments", Json.num 1)]

/-- A model that always answers with the crashing reply. -/
def llmCrash : List Message → String := fun _ => crashReply

/-- The state left by the failing-invocation iteration of the C1 scenario:
only the assistant reply appended, counter unchanged, loop flag cleared. -/
def stFailed : ChainState :=
  { messages := [⟨"user", "hi"⟩, ⟨"assistant", exReply⟩], chain_length := 0,
    is_tool_call := false, final_response_shown := true, execs := 1,
    outputs := ["Assistant: Let me check.  Done."] }

/-- The discovery environments of the witness configuration: server `"b"` is
down, the others list one tool each. -/
def envsC6 : String → DiscoverEnv := fun name =>
  if name = "b" then { session := none, listResult := .error "down" }
  else
    { session := some (),
      listResult := .ok [("tools",
        [{ name := "t-" ++ name, description := "d", inputSchema := Json.null }])] }


/-- A live connection (running task, registered session) for the C7 witness. -/
def c7conn : CleanConn :=
  { session := some (), taskExists := true, taskDone := false,
    registered := true, isCleaningUp := false }


/-- The stored connection of the C10 witness, created under config
`command = "python"`. -/
def c10conn : ConnState :=
  { name := "s", config := { command := "python", args := ["a.py"], env := [] },
    session := some (), initComplete := true, registered := true,
    resourcesReleased := false }


/-! ## Shared lemmas -/

/-- Unfolding `process_llm_response` when a decodable tool-call match exists:
the outcome is that of `execute_tool_call`, a returned pair being extended by
the stripped, all-occurrences-removed remainder and an uncaught exception
being propagated as-is. -/
theorem process_eq_of_match (reg : Registry) (runTool : String → Json → Except String String)
    {resp : String} {m : List Char} {tc : Json}
    (h : firstToolCallMatch (findallJson resp.toList) = some (m, tc)) :
    process_llm_response reg runTool resp =
      (execute_tool_call reg runTool tc).map
        (fun r => (r.1, r.2, String.mk (pyStrip (replaceAll m resp.toList)))) := by
  unfold process_llm_response
  rw [h]
  show (match execute_tool_call reg runTool tc with
        | Except.error e => Except.error e
        | Except.ok r =>
          Except.ok (r.1, r.2, String.mk (pyStrip (replaceAll m resp.toList)))) = _
  cases execute_tool_call reg runTool tc <;> rfl

/-- Unfolding `process_llm_response` when no decodable tool-call match exists. -/
theorem process_eq_of_no_match (reg : Registry)
    (runTool : String → Json → Except String String) {resp : String}
    (h : firstToolCallMatch (findallJson resp.toList) = none) :
    process_llm_response reg runTool resp = .ok (resp, false, resp) := by
  unfold process_llm_response
  rw [h]

/-- A returned true `is_tool_call` flag out of `execute_tool_call` means the
registry lookup returned a tool (so `tool.execute` was invoked). -/
theorem exec_ok_registered {reg : Registry}
    {runTool : String → Json → Except String String} {tc : Json} {s : String}
    (h : execute_tool_call reg runTool tc = .ok (s, true)) :
    ∃ tool, registryGet reg (tc.getD "tool") = .ok (some tool) := by
  unfold execute_tool_call at h
  cases hreg : registryGet reg (tc.getD "tool") with
  | error e => rw [hreg] at h; simp at h
  | ok o =>
    cases o with
    | none => rw [hreg] at h; simp at h
    | some tool => exact ⟨tool, rfl⟩

/-- Projecting an invocation's outcome to the remainder string it will carry
depends only on the lookup outcome: every returned pair is sent to the same
remainder, and the exception is kept. -/
theorem exec_remainder_shape (reg : Registry)
    (runTool : String → Json → Except String String) (tc : Json) (h : String) :
    ((execute_tool_call reg runTool tc).map (fun r => (r.1, r.2, h))).map
        (fun t => t.2.2) =
      (registryGet reg (tc.getD "tool")).map (fun _ => h) := by
  unfold execute_tool_call
  cases hg : registryGet reg (tc.getD "tool") with
  | error e => rfl
  | ok o =>
    cases o with
    | none => rfl
    | some tool =>
      show ((match runTool tool.name (tc.getD "arguments") with
             | Except.ok r => Except.ok ("Tool execution result: " ++ r, true)
             | Except.error e =>
               Except.ok ("Error executing tool: " ++ e, false)).map
               (fun (r : String × Bool) => (r.1, r.2, h))).map
              (fun (t : String × Bool × String) => t.2.2) =
          Except.ok h
      cases runTool tool.name (tc.getD "arguments") <;> rfl

/-- Whether the dict lookup returns or raises — and which `TypeError` it
raises — depends only on the decoded key, never on the registry contents. -/
theorem registryGet_indep (reg1 reg2 : Registry) (j : Json) (h : String) :
    (registryGet reg1 j).map (fun _ => h) = (registryGet reg2 j).map (fun _ => h) := by
  cases j <;> rfl

/-- Characterization of one loop iteration whose reply parses to a tool call
that resolves to a registered tool and whose execution fails. -/
theorem chainStep_exec_error {reg : Registry}
    {runTool : String → Json → Except String String} {llm : List Message → String}
    {st : ChainState} {m : List Char} {tc : Json} {tool : Tool} {e : String}
    (h1 : firstToolCallMatch (findallJson (llm st.messages).toList) = some (m, tc))
    (h2 : registryGet reg (tc.getD "tool") = .ok (some tool))
    (h3 : runTool tool.name (tc.getD "arguments") = .error e) :
    (chainStep reg runTool llm st).map ChainState.is_tool_call = .ok false ∧
    (chainStep reg runTool llm st).map ChainState.chain_length = .ok st.chain_length ∧
    (chainStep reg runTool llm st).map ChainState.messages =
      .ok (st.messages ++ [⟨"assistant", llm st.messages⟩]) := by
  have hexec : execute_tool_call reg runTool tc =
      .ok ("Error executing tool: " ++ e, false) := by
    simp [execute_tool_call, h2, h3]
  unfold chainStep
  simp only [process_eq_of_match reg runTool h1, hexec, h1, h2]
  simp [Except.map]

/-- A state whose `is_tool_call` flag is cleared is a fixpoint of the
chain-of-thought loop: the loop condition fails at once. -/
theorem runChain_fix {reg : Registry} {runTool : String → Json → Except String String}
    {llm : List Message → String} {maxLen : Nat} {st : ChainState}
    (h : st.is_tool_call = false) :
    ∀ fuel, runChain reg runTool llm maxLen fuel st = .ok st := by
  intro fuel
  cases fuel with
  | zero => rfl
  | succ n =>
    unfold runChain
    rw [h]
    simp

/-! ## C3 — tool-call parsing and the human-readable remainder -/

/-- C3, counterexample: on a reply holding the matched tool-call literal
twice, the source removes *both* occurrences (Python `str.replace` replaces
every occurrence), so the text surrounding the first match is not preserved
verbatim: the remainder `"x  y  z"` no longer contains the second,
untouched occurrence of the literal that the claim requires to survive. -/
theorem c3_counterexample :
    firstToolCallMatch (findallJson r3.toList) = some (j3.toList, tc3) ∧
    process_llm_response regLookup runOk r3 =
      .ok ("No tool found with name: a", false, "x  y  z") ∧
    listContains j3.toList ("x  y  z").toList = false := by
  refine ⟨rfl, ?_, rfl⟩
  rfl

/-- C3, amended: for every reply in which some regex match decodes to an
object with both a `tool` and an `arguments` field, `process_llm_response`
yields the first such decoded object as the ToolCall and — whenever the
lookup of the decoded `tool` value does not raise — returns a remainder equal
to the reply with *every* occurrence of the matched literal removed and the
result stripped of leading and trailing whitespace; when the decoded `tool`
value is an unhashable dict or list the lookup's `TypeError` propagates
instead and nothing is returned.  On the spec's example reply the remainder
is exactly `"Let me check.  Done."`, and a reply with no such object yields
no ToolCall and the reply unchanged. -/
theorem c3_amended :
    (∀ (reg : Registry) (runTool : String → Json → Except String String)
       (resp : String) (m : List Char) (tc : Json) (r : String × Bool),
       firstToolCallMatch (findallJson resp.toList) = some (m, tc) →
       execute_tool_call reg runTool tc = .ok r →
       process_llm_response reg runTool resp =
         .ok (r.1, r.2, String.mk (pyStrip (replaceAll m resp.toList)))) ∧
    (∀ (reg : Registry) (runTool : String → Json → Except String String)
       (resp : String) (m : List Char) (tc : Json) (e : String),
       firstToolCallMatch (findallJson resp.toList) = some (m, tc) →
       execute_tool_call reg runTool tc = .error e →
       process_llm_response reg runTool resp = .error e) ∧
    (∀ (reg : Registry) (runTool : String → Json → Except String String) (resp : String),
       firstToolCallMatch (findallJson resp.toList) = none →
       process_llm_response reg runTool resp = .ok (resp, false, resp)) ∧
    firstToolCallMatch (findallJson exReply.toList) = some (jLookup.toList, tcLookup) := by
  refine ⟨?_, ?_, ?_, rfl⟩
  · intro reg runTool resp m tc r h hx
    rw [process_eq_of_match reg runTool h, hx]
    rfl
  · intro reg runTool resp m tc e h hx
    rw [process_eq_of_match reg runTool h, hx]
    rfl
  · intro reg runTool resp h
    exact process_eq_of_no_match reg runTool h

/-- C3, witness: the three universally quantified parts of the amended claim,
evaluated on the spec's example reply, on the crashing dict-valued reply, and
on a reply with no JSON object. -/
theorem c3_witness :
    process_llm_response regLookup runOk exReply =
      .ok ("Tool execution result: 42", true, "Let me check.  Done.") ∧
    process_llm_response regLookup runOk crashReply =
      .error "TypeError: unhashable type: dict" ∧
    process_llm_response regLookup runOk "The weather is sunny." =
      .ok ("The weather is sunny.", false, "The weather is sunny.") := by
  refine ⟨?_, ?_, ?_⟩
  · rw [c3_amended.1 regLookup runOk exReply jLookup.toList tcLookup
      ("Tool execution result: 42", true) rfl rfl]
    rfl
  · exact c3_amended.2.1 regLookup runOk crashReply crashReply.toList tcCrash
      "TypeError: unhashable type: dict" rfl rfl
  · exact c3_amended.2.2.1 regLookup runOk "The weather is sunny." rfl

/-! ## C9 — remainder computation vs. execution outcome -/

/-- C9, counterexample: the remainder surfaced to the user *can* contain the
matched tool-call text.  On `s9` the scan matches exactly `m9`, and deleting
its occurrences rejoins the surrounding fragments into `m9` itself, so the
returned remainder equals the matched text. -/
theorem c9_counterexample :
    firstToolCallMatch (findallJson s9.toList) = some (m9.toList, tc9) ∧
    process_llm_response regLookup runOk s9 =
      .ok ("No tool found with name: x", false, m9) ∧
    listContains m9.toList m9.toList = true := by
  refine ⟨rfl, ?_, ?_⟩ <;> rfl

/-- C9, amended: the remainder is computed before and independently of tool
resolution and execution — for one reply, every registry and every runner
produce the same remainder when a triple is returned, and the same uncaught
`TypeError` when the decoded `tool` value is an unhashable container (the
exception depends only on the decoded value) — and every returned remainder
equals the reply with all occurrences of the matched literal removed and
stripped; but because removal can rejoin fragments into the matched text, the
remainder does not always exclude it. -/
theorem c9_amended :
    (∀ (reg1 reg2 : Registry) (run1 run2 : String → Json → Except String String)
       (resp : String),
       (process_llm_response reg1 run1 resp).map (fun t => t.2.2) =
         (process_llm_response reg2 run2 resp).map (fun t => t.2.2)) ∧
    (∀ (reg : Registry) (runTool : String → Json → Except String String)
       (resp : String) (m : List Char) (tc : Json) (t : String × Bool × String),
       firstToolCallMatch (findallJson resp.toList) = some (m, tc) →
       process_llm_response reg runTool resp = .ok t →
       t.2.2 = String.mk (pyStrip (replaceAll m resp.toList))) := by
  constructor
  · intro reg1 reg2 run1 run2 resp
    cases h : firstToolCallMatch (findallJson resp.toList) with
    | none => rw [process_eq_of_no_match reg1 run1 h, process_eq_of_no_match reg2 run2 h]
    | some q =>
      obtain ⟨mm, tcc⟩ := q
      rw [process_eq_of_match reg1 run1 h, process_eq_of_match reg2 run2 h,
          exec_remainder_shape, exec_remainder_shape, registryGet_indep reg1 reg2]
  · intro reg runTool resp m tc t h hok
    rw [process_eq_of_match reg runTool h] at hok
    cases hx : execute_tool_call reg runTool tc with
    | error e => rw [hx] at hok; simp [Except.map] at hok
    | ok r =>
      rw [hx] at hok
      simp only [Except.map, Except.ok.injEq] at hok
      rw [← hok]

/-- C9, witness: on `s9`, an unrelated registry with a failing runner and the
empty registry with a succeeding runner produce the same remainder, and the
triple actually returned carries the all-occurrences-removed, stripped
remainder. -/
theorem c9_witness :
    (process_llm_response regLookup runBoom s9).map (fun t => t.2.2) =
      (process_llm_response [] runOk s9).map (fun t => t.2.2) ∧
    ("No tool found with name: x", false, m9).2.2 =
      String.mk (pyStrip (replaceAll m9.toList s9.toList)) :=
  ⟨c9_amended.1 regLookup [] runBoom runOk s9,
   c9_amended.2 regLookup runBoom s9 m9.toList tc9
     ("No tool found with name: x", false, m9) rfl rfl⟩

/-! ## C8 — per-iteration message growth -/

/-- C8, counterexample: on a reply whose decoded `tool` field is a dict, the
iteration appends *no* message at all — `tools.get` raises an uncaught
`TypeError` before the assistant append, and the whole turn crashes — so it
is not true of every iteration that exactly one assistant message is
appended. -/
theorem c8_counterexample :
    chainStep regLookup runOk llmCrash stUser =
      .error "TypeError: unhashable type: dict" ∧
    runTurn regLookup runOk llmCrash 10 [] "hi" =
      .error "TypeError: unhashable type: dict" := by
  refine ⟨?_, ?_⟩ <;> rfl

/-- C8, amended: in every iteration whose processing returns (in particular
whenever the decoded `tool` value of a parsed call is not an unhashable
container), exactly one `assistant` message holding the raw reply is
appended, plus a `system` message holding the processed result exactly when
the reply was classified as a tool call; on a not-a-tool-call classification
the processed result string never enters the message sequence.  When the
lookup raises, nothing is appended and the exception ends the conversation. -/
theorem c8_amended (reg : Registry)
    (runTool : String → Json → Except String String) (llm : List Message → String)
    (st : ChainState) (p : String × Bool × String)
    (h : process_llm_response reg runTool (llm st.messages) = .ok p) :
    (chainStep reg runTool llm st).map ChainState.messages =
      .ok (st.messages ++ [⟨"assistant", llm st.messages⟩] ++
        (if p.2.1 = true then [⟨"system", p.1⟩] else [])) := by
  unfold chainStep
  simp only [h]
  cases hb : p.2.1 <;> simp [hb, Except.map]

/-- C8, witness: one tool-call iteration and one plain-reply iteration, each
appending exactly the claimed messages. -/
theorem c8_witness :
    (chainStep regLookup runOk llmLookup stUser).map ChainState.messages =
      .ok [⟨"user", "hi"⟩, ⟨"assistant", exReply⟩,
           ⟨"system", "Tool execution result: 42"⟩] ∧
    (chainStep regLookup runOk (fun _ => "sunny") stUser).map ChainState.messages =
      .ok [⟨"user", "hi"⟩, ⟨"assistant", "sunny"⟩] := by
  constructor
  · rw [c8_amended regLookup runOk llmLookup stUser
      ("Tool execution result: 42", true, "Let me check.  Done.") rfl]
    rfl
  · rw [c8_amended regLookup runOk (fun _ => "sunny") stUser
      ("sunny", false, "sunny") rfl]
    rfl

/-! ## C1 — a failing invocation of a registered tool -/

/-- C1, counterexample: with the example tool registered but its invocation
raising, the iteration classifies the reply as *not* a tool call: the
formatted error string is not appended, the chain counter stays at `0`, and
the loop flag is cleared — contradicting the claim that the error is
appended as a `system` message, the counter incremented and the loop
continued. -/
theorem c1_counterexample :
    (chainStep regLookup runBoom llmLookup stUser).map ChainState.is_tool_call =
      .ok false ∧
    (chainStep regLookup runBoom llmLookup stUser).map ChainState.chain_length =
      .ok 0 ∧
    (chainStep regLookup runBoom llmLookup stUser).map ChainState.messages =
      .ok [⟨"user", "hi"⟩, ⟨"assistant", exReply⟩] ∧
    ¬ ((⟨"system", "Error executing tool: boom"⟩ : Message) ∈
        [(⟨"user", "hi"⟩ : Message), ⟨"assistant", exReply⟩]) := by
  refine ⟨rfl, rfl, rfl, ?_⟩
  decide

/-- C1, amended: when a parsed tool call names a registered tool and the
invocation fails, the error string is returned with a not-a-tool-call
classification: it is *not* appended to the conversation, the chain counter
is *not* incremented, only the raw `assistant` reply is appended, and the
reasoning loop ends the turn there (the resulting state is a fixpoint of the
loop). -/
theorem c1_amended (reg : Registry) (runTool : String → Json → Except String String)
    (llm : List Message → String) (st : ChainState) (m : List Char) (tc : Json)
    (tool : Tool) (e : String)
    (h1 : firstToolCallMatch (findallJson (llm st.messages).toList) = some (m, tc))
    (h2 : registryGet reg (tc.getD "tool") = .ok (some tool))
    (h3 : runTool tool.name (tc.getD "arguments") = .error e) :
    (chainStep reg runTool llm st).map ChainState.is_tool_call = .ok false ∧
    (chainStep reg runTool llm st).map ChainState.chain_length = .ok st.chain_length ∧
    (chainStep reg runTool llm st).map ChainState.messages =
      .ok (st.messages ++ [⟨"assistant", llm st.messages⟩]) ∧
    ∀ (st' : ChainState) (maxLen fuel : Nat),
      chainStep reg runTool llm st = .ok st' →
      runChain reg runTool llm maxLen fuel st' = .ok st' := by
  have h := chainStep_exec_error h1 h2 h3
  refine ⟨h.1, h.2.1, h.2.2, ?_⟩
  intro st' maxLen fuel hst
  have hflag : st'.is_tool_call = false := by
    have hh := h.1
    rw [hst] at hh
    simpa [Except.map] using hh
  exact runChain_fix hflag fuel

/-- C1, witness: the amended claim applied to the registered example tool
with an always-raising invocation; the failing iteration's resulting state is
a loop fixpoint. -/
theorem c1_witness :
    (chainStep regLookup runBoom llmLookup stUser).map ChainState.is_tool_call =
      .ok false ∧
    runChain regLookup runBoom llmLookup 10 11 stFailed = .ok stFailed := by
  have h := c1_amended regLookup runBoom llmLookup stUser jLookup.toList tcLookup
    toolLookup "boom" rfl rfl rfl
  exact ⟨h.1, h.2.2.2 stFailed 10 11 rfl⟩

/-! ## C5 — the bounded-chain fallback -/

/-- One loop iteration whose reply parses to a tool call executing
successfully: the state returns, the loop flag stays set, the chain counter
and the invocation count each grow by one. -/
theorem chainStep_exec_ok {reg : Registry}
    {runTool : String → Json → Except String String} {llm : List Message → String}
    {st : ChainState} {m : List Char} {tc : Json} {s : String}
    (h1 : firstToolCallMatch (findallJson (llm st.messages).toList) = some (m, tc))
    (h2 : execute_tool_call reg runTool tc = .ok (s, true)) :
    ∃ st', chainStep reg runTool llm st = .ok st' ∧
      st'.is_tool_call = true ∧
      st'.chain_length = st.chain_length + 1 ∧
      st'.execs = st.execs + 1 := by
  obtain ⟨tool, hreg⟩ := exec_ok_registered h2
  unfold chainStep
  simp only [process_eq_of_match reg runTool h1, h2, h1, hreg]
  simp [Except.map]

/-- Under a model whose every reply parses to a successfully executing tool
call, the loop runs the remaining `n` iterations, returns a state with the
loop flag set, and performs exactly one tool invocation per iteration. -/
theorem runChain_all_ok {reg : Registry}
    {runTool : String → Json → Except String String} {llm : List Message → String}
    (maxLen : Nat)
    (H : ∀ ms : List Message, ∃ m tc s,
      firstToolCallMatch (findallJson (llm ms).toList) = some (m, tc) ∧
      execute_tool_call reg runTool tc = .ok (s, true)) :
    ∀ n st, st.is_tool_call = true → st.chain_length + n = maxLen →
      ∃ st1, runChain reg runTool llm maxLen (n + 1) st = .ok st1 ∧
        st1.chain_length = maxLen ∧ st1.is_tool_call = true ∧
        st1.execs = st.execs + n := by
  intro n
  induction n with
  | zero =>
    intro st hitc hcl
    have hcond : ¬ (st.is_tool_call = true ∧ st.chain_length < maxLen) :=
      fun hc => absurd hc.2 (by omega)
    unfold runChain
    rw [if_neg hcond]
    exact ⟨st, rfl, by omega, hitc, by omega⟩
  | succ k ih =>
    intro st hitc hcl
    obtain ⟨m, tc, s, h1, h2⟩ := H st.messages
    obtain ⟨st', hstep, hitc', hcl', hex'⟩ := chainStep_exec_ok h1 h2
    have hlt : st.chain_length < maxLen := by omega
    obtain ⟨st1, hrun, hc1, hi1, he1⟩ := ih st' hitc' (by omega)
    refine ⟨st1, ?_, hc1, hi1, by omega⟩
    unfold runChain
    rw [if_pos ⟨hitc, hlt⟩, hstep]
    exact hrun

/-- Unfolding one user turn when the loop returns having hit the bound: the
warning and one further, unparsed reply are appended and surfaced. -/
theorem runTurn_of_runChain {reg : Registry}
    {runTool : String → Json → Except String String} {llm : List Message → String}
    {maxLen : Nat} {msgs : List Message} {user : String} {st1 : ChainState}
    (h : runChain reg runTool llm maxLen (maxLen + 1)
      { messages := msgs ++ [⟨"user", user⟩], chain_length := 0, is_tool_call := true,
        final_response_shown := false, execs := 0, outputs := [] } = .ok st1)
    (hge : st1.chain_length ≥ maxLen) :
    runTurn reg runTool llm maxLen msgs user =
      .ok { st1 with
            messages := (st1.messages ++ [⟨"system", warningMsg⟩]) ++
              [⟨"assistant", llm (st1.messages ++ [⟨"system", warningMsg⟩])⟩],
            outputs := st1.outputs ++
              ["Assistant: " ++ llm (st1.messages ++ [⟨"system", warningMsg⟩])] } := by
  unfold runTurn
  simp only [h]
  rw [if_pos hge]

/-- C5: when every model reply parses as a valid tool call whose execution
succeeds, a user turn performs exactly `maxLen` tool invocations, then the
bounded-chain fallback fires exactly once: the warning is appended as a
`system` message, one further reply is requested (appended as the final
`assistant` message with no tool-call parsing) and surfaced as the turn's
answer. -/
theorem c5_bounded_chain (reg : Registry)
    (runTool : String → Json → Except String String) (llm : List Message → String)
    (maxLen : Nat) (msgs : List Message) (user : String)
    (H : ∀ ms : List Message, ∃ m tc s,
      firstToolCallMatch (findallJson (llm ms).toList) = some (m, tc) ∧
      execute_tool_call reg runTool tc = .ok (s, true)) :
    ∃ loopMsgs loopOuts,
      (runTurn reg runTool llm maxLen msgs user).map ChainState.execs = .ok maxLen ∧
      (runTurn reg runTool llm maxLen msgs user).map ChainState.chain_length =
        .ok maxLen ∧
      (runTurn reg runTool llm maxLen msgs user).map ChainState.messages =
        .ok (loopMsgs ++ [⟨"system", warningMsg⟩,
          ⟨"assistant", llm (loopMsgs ++ [⟨"system", warningMsg⟩])⟩]) ∧
      (runTurn reg runTool llm maxLen msgs user).map ChainState.outputs =
        .ok (loopOuts ++ ["Assistant: " ++ llm (loopMsgs ++ [⟨"system", warningMsg⟩])]) := by
  obtain ⟨st1, hrun, hc1, hi1, he1⟩ := runChain_all_ok maxLen H maxLen
    { messages := msgs ++ [⟨"user", user⟩], chain_length := 0, is_tool_call := true,
      final_response_shown := false, execs := 0, outputs := [] } rfl (by simp)
  have hturn := runTurn_of_runChain hrun (by omega)
  refine ⟨st1.messages, st1.outputs, ?_, ?_, ?_, ?_⟩ <;> rw [hturn]
  · simpa [Except.map] using he1
  · simpa [Except.map] using hc1
  · simp [Except.map]
  · simp [Except.map]

/-- C5, witness: with the example tool registered, a runner that always
succeeds and a model that always replies with the example tool call, a turn
with `maxLen = 2` performs exactly two invocations and then the fallback. -/
theorem c5_witness :
    ∃ loopMsgs loopOuts,
      (runTurn regLookup runOk llmLookup 2 [] "hi").map ChainState.execs = .ok 2 ∧
      (runTurn regLookup runOk llmLookup 2 [] "hi").map ChainState.chain_length =
        .ok 2 ∧
      (runTurn regLookup runOk llmLookup 2 [] "hi").map ChainState.messages =
        .ok (loopMsgs ++ [⟨"system", warningMsg⟩,
          ⟨"assistant", llmLookup (loopMsgs ++ [⟨"system", warningMsg⟩])⟩]) ∧
      (runTurn regLookup runOk llmLookup 2 [] "hi").map ChainState.outputs =
        .ok (loopOuts ++
          ["Assistant: " ++ llmLookup (loopMsgs ++ [⟨"system", warningMsg⟩])]) :=
  c5_bounded_chain regLookup runOk llmLookup 2 [] "hi"
    (fun _ => ⟨jLookup.toList, tcLookup, "Tool execution result: 42", rfl, rfl⟩)

/-! ## C2 — session lookup failure inside the retry loop -/

/-- Every attempt whose session lookup and remote call both resolve to a
failure behaves the same: the loop consumes all remaining attempts with a
delay between consecutive ones and propagates the last failure. -/
theorem toolExecuteGo_all_fail (server : String) (sess : Nat → Option Unit)
    (call : Nat → Except String String) (e : Nat → String)
    (hf : ∀ i, (match sess i with
      | none => Except.error ("Server " ++ server ++ " not initialized")
      | some _ => call i) = Except.error (e i)) :
    ∀ remaining attempt sleeps, 1 ≤ remaining →
      toolExecuteGo server sess call remaining attempt sleeps =
        { attempts := attempt + remaining, sleeps := sleeps + (remaining - 1),
          outcome := some (.error (e (attempt + remaining - 1))) } := by
  intro remaining
  induction remaining with
  | zero => intro attempt sleeps hr; omega
  | succ k ih =>
    intro attempt sleeps _
    unfold toolExecuteGo
    simp only [hf attempt]
    cases k with
    | zero => simp
    | succ j =>
      have hrec := ih (attempt + 1) (sleeps + 1) (by omega)
      simp only [Nat.succ_ne_zero, if_neg, if_false]
      rw [hrec]
      have e1 : attempt + 1 + (j + 1) = attempt + (j + 1 + 1) := by omega
      have e2 : sleeps + 1 + (j + 1 - 1) = sleeps + (j + 1 + 1 - 1) := by omega
      rw [e1, e2]

/-- C2, counterexample: with no session ever available (`retries = 2`), the
call does *not* fail immediately: it makes two attempts with one
inter-attempt delay before the missing-session error propagates —
contradicting the claimed immediate, retry-free failure. -/
theorem c2_counterexample :
    toolExecute "weather" (fun _ => none) (fun _ => Except.ok "r") 2 =
      { attempts := 2, sleeps := 1,
        outcome := some (.error "Server weather not initialized") } ∧
    ¬ ((toolExecute "weather" (fun _ => none) (fun _ => Except.ok "r") 2).attempts = 1 ∧
       (toolExecute "weather" (fun _ => none) (fun _ => Except.ok "r") 2).sleeps = 0) := by
  refine ⟨rfl, ?_⟩
  decide

/-- C2, amended: a missing session raises an error that is handled exactly
like a failing remote invocation — with `retries ≥ 1` and every attempt
failing (for either reason), `retries` attempts are made with `retries - 1`
fixed delays between them, and only the final failure propagates. -/
theorem c2_amended (server : String) (sess : Nat → Option Unit)
    (call : Nat → Except String String) (e : Nat → String) (retries : Nat)
    (hr : 1 ≤ retries)
    (hf : ∀ i, (match sess i with
      | none => Except.error ("Server " ++ server ++ " not initialized")
      | some _ => call i) = Except.error (e i)) :
    toolExecute server sess call retries =
      { attempts := retries, sleeps := retries - 1,
        outcome := some (.error (e (retries - 1))) } := by
  unfold toolExecute
  have h := toolExecuteGo_all_fail server sess call e hf retries 0 0 hr
  simpa using h

/-- C2, witness: a present session whose remote call always raises, with
`retries = 3`: three attempts, two delays, the final failure propagated. -/
theorem c2_witness :
    toolExecute "weather" (fun _ => some ()) (fun _ => Except.error "remote failure") 3 =
      { attempts := 3, sleeps := 2, outcome := some (.error "remote failure") } :=
  c2_amended "weather" (fun _ => some ()) (fun _ => Except.error "remote failure")
    (fun _ => "remote failure") 3 (by omega) (fun _ => rfl)

/-! ## C4 — failed initialization still fires the readiness signal -/

/-- C4: whenever `_initialize_impl` fails (command resolution, transport
start or handshake), the readiness event is nevertheless set — so every
caller suspended in `wait_until_initialized` or `get_session` is released —
the session handle stays `none`, the partially acquired resources are
released, and a `get_session` resolving this connection returns `none`. -/
theorem c4_init_failure (env : InitEnv) (st : ConnState)
    (hs : st.session = none) (h : (initImpl env st).2 ≠ Except.ok ()) :
    (initImpl env st).1.initComplete = true ∧
    (initImpl env st).1.session = none ∧
    (initImpl env st).1.resourcesReleased = true ∧
    ∀ (m : ManagerState) (name : String),
      lookupConn m name = some (initImpl env st).1 → get_session m name = none := by
  have hbase : (initImpl env st).1 =
      { st with initComplete := true, resourcesReleased := true } := by
    unfold initImpl at h ⊢
    cases hnpx : (if st.config.command = "npx" then env.whichNpx else some st.config.command) with
    | none => rfl
    | some cmd =>
      rw [hnpx] at h
      cases htr : env.transport with
      | error e => rfl
      | ok u =>
        rw [htr] at h
        cases hhs : env.handshake with
        | error e => rfl
        | ok v =>
          rw [hhs] at h
          exact absurd rfl h
  refine ⟨by rw [hbase], by rw [hbase]; exact hs, by rw [hbase], ?_⟩
  intro m name hm
  unfold get_session
  rw [hm, hbase]
  exact hs

/-- C4, witness: a server configured with command `npx` when `shutil.which`
resolves nothing: initialization fails, the readiness event fires, and
`get_session` on a manager holding this connection yields `none`. -/
theorem c4_witness :
    (initImpl { whichNpx := none, transport := .ok (), handshake := .ok () }
      { name := "s", config := { command := "npx", args := [], env := [] },
        session := none, initComplete := false, registered := false,
        resourcesReleased := false }).1.initComplete = true ∧
    get_session
      ⟨[("s", (initImpl { whichNpx := none, transport := .ok (), handshake := .ok () }
        { name := "s", config := { command := "npx", args := [], env := [] },
          session := none, initComplete := false, registered := false,
          resourcesReleased := false }).1)]⟩ "s" = none := by
  have h := c4_init_failure
    { whichNpx := none, transport := .ok (), handshake := .ok () }
    { name := "s", config := { command := "npx", args := [], env := [] },
      session := none, initComplete := false, registered := false,
      resourcesReleased := false } rfl (by decide)
  exact ⟨h.1, h.2.2.2 _ "s" rfl⟩

/-! ## C6 — discovery failures are contained per server -/

/-- C6: a server with no session yields the empty list without raising; an
exception while listing or constructing tools likewise yields the empty list
with the registry untouched; and `load_from_config` decomposes so that one
server's (possibly failing) discovery step never prevents the steps for the
servers before or after it. -/
theorem c6_discovery_isolation :
    (∀ (env : DiscoverEnv) (reg : Registry) (name : String),
       env.session = none → discover_tools env reg name = (reg, [])) ∧
    (∀ (env : DiscoverEnv) (reg : Registry) (name err : String),
       env.listResult = .error err → discover_tools env reg name = (reg, [])) ∧
    (∀ (envs : String → DiscoverEnv) (pre : List String) (name : String)
       (post : List String) (reg : Registry),
       load_from_config envs (pre ++ name :: post) reg =
         load_from_config envs post
           ((discover_tools (envs name) (load_from_config envs pre reg) name).1)) := by
  refine ⟨?_, ?_, ?_⟩
  · intro env reg name h
    unfold discover_tools
    rw [h]
  · intro env reg name err h
    unfold discover_tools
    cases hses : env.session with
    | none => rfl
    | some u => rw [h]
  · intro envs pre name post reg
    unfold load_from_config
    rw [List.foldl_append]
    rfl

/-- C6, witness: the three parts of the isolation theorem evaluated on
concrete environments and a three-server configuration whose middle server
is down. -/
theorem c6_witness :
    discover_tools { session := none, listResult := .ok [] } [] "a" = ([], []) ∧
    discover_tools { session := some (), listResult := .error "boom" } [] "b" = ([], []) ∧
    load_from_config envsC6 (["a"] ++ "b" :: ["c"]) [] =
      load_from_config envsC6 ["c"]
        ((discover_tools (envsC6 "b") (load_from_config envsC6 ["a"] []) "b").1) :=
  ⟨c6_discovery_isolation.1 { session := none, listResult := .ok [] } [] "a" rfl,
   c6_discovery_isolation.2.1 { session := some (), listResult := .error "boom" } [] "b"
     "boom" rfl,
   c6_discovery_isolation.2.2 envsC6 ["a"] "b" ["c"] []⟩

/-! ## C7 — cleanup is idempotent -/

/-- C7: a second `cleanup()` call (concurrent callers are serialized by the
cleanup lock, so the concurrent case is the sequential composition) performs
no further cancellation of the underlying task, raises nothing, and leaves
the state exactly as the first call left it — with the session handle cleared
and the connection absent from the shared session directory. -/
theorem c7_cleanup_idempotent (c : CleanConn) (h : c.isCleaningUp = false) :
    cleanup (cleanup c).state =
      { state := (cleanup c).state, cancels := 0, raised := false } ∧
    (cleanup c).state.session = none ∧
    (cleanup c).state.registered = false := by
  cases hE : c.taskExists <;> cases hD : c.taskDone <;>
    simp [cleanup, h, hE, hD]

/-- C7, witness: idempotence on a live connection (running task, registered
session). -/
theorem c7_witness :
    cleanup (cleanup c7conn).state =
      { state := (cleanup c7conn).state, cancels := 0, raised := false } ∧
    (cleanup c7conn).state.session = none ∧
    (cleanup c7conn).state.registered = false :=
  c7_cleanup_idempotent c7conn rfl

/-! ## C10 — reconnecting an existing name ignores the new config -/

/-- C10: `connect_server` on an already-registered name returns the existing
connection (after waiting for its readiness) and leaves the manager — and so
the connection's stored configuration — unchanged; the `config` argument is
ignored entirely, so the result is the same for any two configs. -/
theorem c10_connect_existing (env : InitEnv) (m : ManagerState) (name : String)
    (cfg cfg' : ServerConfig) (c : ConnState) (h : lookupConn m name = some c) :
    connect_server env m name cfg = (m, c) ∧
    connect_server env m name cfg = connect_server env m name cfg' ∧
    lookupConn (connect_server env m name cfg).1 name = some c := by
  have h1 : connect_server env m name cfg = (m, c) := by
    unfold connect_server
    rw [h]
  have h2 : connect_server env m name cfg' = (m, c) := by
    unfold connect_server
    rw [h]
  exact ⟨h1, h1.trans h2.symm, by rw [h1]; exact h⟩

/-- C10, witness: reconnecting `"s"` under a different config returns the
existing connection, yields the same result as reconnecting under yet
another config, and the stored connection (with its original config) is
unchanged. -/
theorem c10_witness :
    connect_server { whichNpx := none, transport := .ok (), handshake := .ok () }
      ⟨[("s", c10conn)]⟩ "s"
      { command := "node", args := ["b.js"], env := [("X", "1")] } =
      (⟨[("s", c10conn)]⟩, c10conn) ∧
    lookupConn (connect_server { whichNpx := none, transport := .ok (), handshake := .ok () }
      ⟨[("s", c10conn)]⟩ "s"
      { command := "node", args := ["b.js"], env := [("X", "1")] }).1 "s" = some c10conn ∧
    c10conn.config.command = "python" := by
  have h := c10_connect_existing
    { whichNpx := none, transport := .ok (), handshake := .ok () }
    ⟨[("s", c10conn)]⟩ "s"
    { command := "node", args := ["b.js"], env := [("X", "1")] }
    { command := "python", args := ["a.py"], env := [] } c10conn rfl
  exact ⟨h.1, h.2.2, rfl⟩

end LightMCP
